import Mathlib

/-!
Verification of the fractal computation engine of `kill-pr0cess.inc`
(`src/backend/src/services/fractal_service.rs`,
`src/backend/src/models/fractals.rs`, `src/backend/src/routes/fractals.rs`).

Modelling conventions:
* `f64` values are modelled as exact rationals (`ℚ`).  Every claim treated
  here is about the algebraic / structural behaviour of the code (loop
  structure, buffer layout, threshold comparisons, monotonicity), which is
  insensitive to rounding; the expressions are transcribed operation for
  operation from the source.
* `num_complex::Complex<f64>` is a pair of rationals; `*` and `+` and
  `norm_sqr` are transcribed from `num_complex` (`(a,b)*(c,d) =
  (ac−bd, ad+bc)`, `norm_sqr (a,b) = a*a + b*b`).
* `u8`/`u32`/`u128` quantities are `ℕ`; the Rust float-to-`u8` cast
  `(t * 30.0) as u8` truncates towards zero and its argument is in
  `[0, 30)` here, so it is `Nat.floor`.
* byte buffers (`Vec<u8>`) are `List ℕ`.
* wall-clock time is an input (`computation_time_ms : ℕ`), as is the core
  count that `num_cpus::get()` reports.
-/

/-- Complex numbers over exact rationals, modelling `num_complex::Complex<f64>`. -/
abbrev C2Q : Type := ℚ × ℚ

/-- Complex addition, from `num_complex` (componentwise). -/
def cadd (z w : C2Q) : C2Q := (z.1 + w.1, z.2 + w.2)

/-- Complex multiplication, from `num_complex`:
`(a+bi)(c+di) = (ac−bd) + (ad+bc)i`. -/
def cmul (z w : C2Q) : C2Q := (z.1 * w.1 - z.2 * w.2, z.1 * w.2 + z.2 * w.1)

/-- `Complex::norm_sqr`: `re*re + im*im`. -/
def norm_sqr (z : C2Q) : ℚ := z.1 * z.1 + z.2 * z.2

/-- `FractalType` from `models/fractals.rs` / `services/fractal_service.rs`:
`Mandelbrot`, or `Julia { c_real, c_imag }`. -/
inductive FractalType : Type where
  | Mandelbrot : FractalType
  | Julia : (c_real : ℚ) → (c_imag : ℚ) → FractalType

/-- `FractalRequest` from `services/fractal_service.rs` (same field set as the
validated model in `models/fractals.rs`). -/
structure FractalRequest : Type where
  width : ℕ
  height : ℕ
  center_x : ℚ
  center_y : ℚ
  zoom : ℚ
  max_iterations : ℕ
  fractal_type : FractalType

namespace FractalService

/-- The escape loop of `FractalService::mandelbrot_iterations`, in fuel form.
The Rust loop is `for i in 0..max { if z.norm_sqr() > 4.0 { return i };
z = z*z + c }; max`: with fuel `n` remaining, an immediate escape returns the
current index (`0` relative steps taken), otherwise one step is taken and the
index advances by one. -/
def mandelbrot_go (c : C2Q) : C2Q → ℕ → ℕ
  | _, 0 => 0
  | z, n + 1 =>
    if 4 < norm_sqr z then 0
    else mandelbrot_go c (cadd (cmul z z) c) n + 1

/-- `FractalService::mandelbrot_iterations`: starts at `z = 0`. -/
def mandelbrot_iterations (c : C2Q) (max_iterations : ℕ) : ℕ :=
  mandelbrot_go c (0, 0) max_iterations

/-- The escape loop of `FractalService::julia_iterations`, identical loop body,
`z` supplied by the caller. -/
def julia_go (c : C2Q) : C2Q → ℕ → ℕ
  | _, 0 => 0
  | z, n + 1 =>
    if 4 < norm_sqr z then 0
    else julia_go c (cadd (cmul z z) c) n + 1

/-- `FractalService::julia_iterations`. -/
def julia_iterations (z c : C2Q) (max_iterations : ℕ) : ℕ :=
  julia_go c z max_iterations

/-- `FractalService::iteration_to_dark_color`: black at saturation, otherwise
`t = iterations / max_iterations` and channels `(t*30) as u8`, `(t*50) as u8`,
`(t*80) as u8` with alpha 255.  The casts truncate towards zero; since
`0 ≤ t < 1` here the argument lies in `[0, 80)` and the cast is `Nat.floor`. -/
def iteration_to_dark_color (iterations max_iterations : ℕ) : List ℕ :=
  if iterations = max_iterations then
    [0, 0, 0, 255]
  else
    let t : ℚ := (iterations : ℚ) / (max_iterations : ℚ)
    [⌊t * 30⌋₊, ⌊t * 50⌋₊, ⌊t * 80⌋₊, 255]

/-- The per-pixel viewport mapping from `generate_mandelbrot` /
`generate_julia` (lines 49–55 and 79–85 of `fractal_service.rs`):
`scale = 4.0 / zoom`;
`cx = center_x + (x - width/2) * scale / width`;
`cy = center_y + (y - height/2) * scale / height`. -/
def pixel_point (request : FractalRequest) (x y : ℕ) : C2Q :=
  let scale : ℚ := 4 / request.zoom
  (request.center_x + ((x : ℚ) - (request.width : ℚ) / 2) * scale / (request.width : ℚ),
   request.center_y + ((y : ℚ) - (request.height : ℚ) / 2) * scale / (request.height : ℚ))

/-- One pixel of the Mandelbrot image: map the pixel to the plane, run the
escape loop, colour the count.  This is the body of the inner closure of
`generate_mandelbrot`. -/
def mandelbrot_pixel (request : FractalRequest) (x y : ℕ) : List ℕ :=
  iteration_to_dark_color
    (mandelbrot_iterations (pixel_point request x y) request.max_iterations)
    request.max_iterations

/-- One pixel of the Julia image (body of the inner closure of
`generate_julia`), with the fixed constant `c`. -/
def julia_pixel (request : FractalRequest) (c : C2Q) (x y : ℕ) : List ℕ :=
  iteration_to_dark_color
    (julia_iterations (pixel_point request x y) c request.max_iterations)
    request.max_iterations

/-- The byte buffer of `generate_mandelbrot`: rows `y = 0..height`, within a
row columns `x = 0..width`, each pixel contributing its 4 bytes — the
`flat_map(|y| … map(|x| …) …).flatten().collect()` pipeline.  The rayon
`collect` of an indexed parallel iterator reassembles results in index
order, so the sequential transcription is the specified (and actual)
buffer. -/
def generate_mandelbrot_data (request : FractalRequest) : List ℕ :=
  ((List.range request.height).flatMap (fun y =>
    (List.range request.width).map (fun x => mandelbrot_pixel request x y))).flatten

/-- The byte buffer of `generate_julia`. -/
def generate_julia_data (request : FractalRequest) (c : C2Q) : List ℕ :=
  ((List.range request.height).flatMap (fun y =>
    (List.range request.width).map (fun x => julia_pixel request c x y))).flatten

/-- `FractalResponse` (computation-relevant fields; the wall-clock
`computation_time_ms` is an environment measurement, not modelled). -/
structure FractalResponse : Type where
  data : List ℕ
  width : ℕ
  height : ℕ
  zoom_level : ℚ

/-- `FractalService::generate_mandelbrot`. -/
def generate_mandelbrot (request : FractalRequest) : FractalResponse :=
  { data := generate_mandelbrot_data request
    width := request.width
    height := request.height
    zoom_level := request.zoom }

/-- `FractalService::generate_julia`. -/
def generate_julia (request : FractalRequest) (c : C2Q) : FractalResponse :=
  { data := generate_julia_data request c
    width := request.width
    height := request.height
    zoom_level := request.zoom }

/-- One full row of Mandelbrot bytes — the unit of work a rayon worker on row
`y` produces before reassembly. -/
def mandelbrot_row (request : FractalRequest) (y : ℕ) : List ℕ :=
  ((List.range request.width).map (fun x => mandelbrot_pixel request x y)).flatten

/-- One full row of Julia bytes. -/
def julia_row (request : FractalRequest) (c : C2Q) (y : ℕ) : List ℕ :=
  ((List.range request.width).map (fun x => julia_pixel request c x y)).flatten

/-- A scheduled run of the Mandelbrot generator: the rows are computed in the
arbitrary order `order` (one entry per rayon work item), each result is stored
at its statically-known row slot, and the buffer is read back slot by slot —
the model of "each worker writes only its own disjoint range, reassembly is by
index".  `List.lookup` finds the result a worker produced for row `y`. -/
def scheduled_mandelbrot_data (request : FractalRequest) (order : List ℕ) : List ℕ :=
  (List.range request.height).flatMap (fun y =>
    match (order.map (fun r => (r, mandelbrot_row request r))).lookup y with
    | some bytes => bytes
    | none => [])

/-- A scheduled run of the Julia generator. -/
def scheduled_julia_data (request : FractalRequest) (c : C2Q) (order : List ℕ) : List ℕ :=
  (List.range request.height).flatMap (fun y =>
    match (order.map (fun r => (r, julia_row request c r))).lookup y with
    | some bytes => bytes
    | none => [])

end FractalService

/-- The field-range validation derived on `models/fractals.rs::FractalRequest`
by the `validator` crate: each `#[validate(range(min, max, message))]`
attribute checks its field independently (no short-circuit) and, on failure,
records an error keyed by the field's name.  The model returns the list of
offending field names; validation succeeds exactly when the list is empty.
Bounds transcribed from the source: width/height 64–4096, center_x/center_y
−2.0–2.0, zoom 0.1–1e15, max_iterations 50–10000. -/
def FractalRequest.validate (r : FractalRequest) : List String :=
  (if 64 ≤ r.width ∧ r.width ≤ 4096 then [] else ["width"]) ++
  (if 64 ≤ r.height ∧ r.height ≤ 4096 then [] else ["height"]) ++
  (if -2 ≤ r.center_x ∧ r.center_x ≤ 2 then [] else ["center_x"]) ++
  (if -2 ≤ r.center_y ∧ r.center_y ≤ 2 then [] else ["center_y"]) ++
  (if 1/10 ≤ r.zoom ∧ r.zoom ≤ 10 ^ 15 then [] else ["zoom"]) ++
  (if 50 ≤ r.max_iterations ∧ r.max_iterations ≤ 10000 then [] else ["max_iterations"])

/-- `ComputationComplexity` from `models/fractals.rs`. -/
inductive ComputationComplexity : Type where
  | Low : ComputationComplexity
  | Medium : ComputationComplexity
  | High : ComputationComplexity
  | Extreme : ComputationComplexity
deriving DecidableEq

/-- `ComputationComplexity::from_parameters`:
`score = (width*height) * iterations * zoom.log10().max(0.0) / 1_000_000`,
then `< 1 → Low`, `< 10 → Medium`, `< 100 → High`, else `Extreme`.
The transcendental `zoom.log10()` is taken as the input `log10_zoom`
(exact for the powers of ten the tests use); the `.max(0.0)` is transcribed
as `max log10_zoom 0`. -/
def ComputationComplexity.from_parameters
    (width height iterations : ℕ) (log10_zoom : ℚ) : ComputationComplexity :=
  let pixel_count : ℕ := width * height
  let complexity_score : ℚ :=
    ((pixel_count : ℚ) * (iterations : ℚ) * max log10_zoom 0) / 1000000
  if complexity_score < 1 then ComputationComplexity.Low
  else if complexity_score < 10 then ComputationComplexity.Medium
  else if complexity_score < 100 then ComputationComplexity.High
  else ComputationComplexity.Extreme

/-- `routes/fractals.rs` line 100:
`pixels_per_second = (width * height) as f64 / (computation_time_ms as f64 / 1000.0)`. -/
def pixels_per_second (width height computation_time_ms : ℕ) : ℚ :=
  ((width * height : ℕ) : ℚ) / ((computation_time_ms : ℚ) / 1000)

/-- `routes/fractals.rs::calculate_parallel_efficiency`:
`theoretical = total_pixels * 0.001`; `actual = computation_time_ms / 1000`;
`(theoretical / actual / available_cores).min(1.0)`.  The core count that
`num_cpus::get()` reports is the input `available_cores`. -/
def calculate_parallel_efficiency
    (computation_time_ms total_pixels available_cores : ℕ) : ℚ :=
  let theoretical_single_thread_time : ℚ := (total_pixels : ℚ) * (1 / 1000)
  let actual_time_seconds : ℚ := (computation_time_ms : ℚ) / 1000
  min (theoretical_single_thread_time / actual_time_seconds / (available_cores : ℚ)) 1

/-- The viewport mapping exactly as §4.2 of the specification words it:
`scale = 4.0 / zoom`, `point_x = cx + (pixel_x − W/2) * scale / W`,
`point_y = cy + (pixel_y − H/2) * scale / H`. -/
def viewport_point_spec (W H : ℕ) (cx cy zoom : ℚ) (pixel_x pixel_y : ℕ) : C2Q :=
  let scale : ℚ := 4 / zoom
  (cx + ((pixel_x : ℚ) - (W : ℚ) / 2) * scale / (W : ℚ),
   cy + ((pixel_y : ℚ) - (H : ℚ) / 2) * scale / (H : ℚ))

/-- The orbit of the escape-time recurrence: `orbit z c 0 = z`,
`orbit z c (n+1) = (orbit z c n)² + c`. -/
def orbit (z c : C2Q) : ℕ → C2Q
  | 0 => z
  | n + 1 => cadd (cmul (orbit z c n) (orbit z c n)) c

/-- Concatenation of the blocks `f 0, f 1, …, f (n-1)` — the shape of the
row-major buffer. -/
def block_concat (f : ℕ → List ℕ) : ℕ → List ℕ
  | 0 => []
  | n + 1 => block_concat f n ++ f n

/-- The request the Mandelbrot route builds when the query supplies no
parameters (`routes/fractals.rs` lines 72–77): 800×600, center `(-0.5, 0)`,
zoom 1, 100 iterations — exactly the shape of the §8 set-membership test. -/
def default_mandelbrot_request : FractalRequest :=
  { width := 800
    height := 600
    center_x := -(1 / 2)
    center_y := 0
    zoom := 1
    max_iterations := 100
    fractal_type := FractalType.Mandelbrot }

lemma orbit_succ_shift (z c : C2Q) (n : ℕ) :
    orbit z c (n + 1) = orbit (cadd (cmul z z) c) c n := by
  induction n with
  | zero => rfl
  | succ n ih => rw [orbit, ih, orbit]

/-- Characterization of the shared escape loop: the returned index is at most
the fuel, no earlier orbit point has escaped, and if the index is below the
fuel then the orbit point at that index has escaped. -/
lemma julia_go_spec (c : C2Q) :
    ∀ (n : ℕ) (z : C2Q),
      FractalService.julia_go c z n ≤ n ∧
      (∀ j < FractalService.julia_go c z n, ¬ 4 < norm_sqr (orbit z c j)) ∧
      (FractalService.julia_go c z n < n →
        4 < norm_sqr (orbit z c (FractalService.julia_go c z n))) := by
  intro n
  induction n with
  | zero =>
    intro z
    refine ⟨le_refl 0, ?_, ?_⟩
    · intro j hj; simp [FractalService.julia_go] at hj
    · intro h; simp [FractalService.julia_go] at h
  | succ n ih =>
    intro z
    by_cases hesc : 4 < norm_sqr z
    · refine ⟨?_, ?_, ?_⟩
      · simp [FractalService.julia_go, hesc]
      · intro j hj; simp [FractalService.julia_go, hesc] at hj
      · intro _; simp [FractalService.julia_go, hesc, orbit]
    · have hgo : FractalService.julia_go c z (n + 1) =
          FractalService.julia_go c (cadd (cmul z z) c) n + 1 := by
        simp [FractalService.julia_go, hesc]
      obtain ⟨ih1, ih2, ih3⟩ := ih (cadd (cmul z z) c)
      refine ⟨?_, ?_, ?_⟩
      · rw [hgo]; omega
      · intro j hj
        rw [hgo] at hj
        match j with
        | 0 => simpa [orbit] using hesc
        | j + 1 =>
          rw [orbit_succ_shift]
          exact ih2 j (by omega)
      · intro hlt
        rw [hgo] at hlt ⊢
        rw [orbit_succ_shift]
        exact ih3 (by omega)

/-- The two loop bodies are identical; `mandelbrot_go` is `julia_go`. -/
lemma mandelbrot_go_eq_julia_go (c : C2Q) :
    ∀ (n : ℕ) (z : C2Q), FractalService.mandelbrot_go c z n = FractalService.julia_go c z n := by
  intro n
  induction n with
  | zero => intro z; rfl
  | succ n ih =>
    intro z
    simp only [FractalService.mandelbrot_go, FractalService.julia_go, ih]

/-- At `c = 0` the orbit never leaves the origin, so the loop always exhausts
its budget. -/
lemma mandelbrot_go_zero : ∀ n : ℕ, FractalService.mandelbrot_go (0, 0) (0, 0) n = n := by
  intro n
  induction n with
  | zero => rfl
  | succ n ih =>
    have hstep : cadd (cmul ((0 : ℚ), (0 : ℚ)) ((0 : ℚ), (0 : ℚ))) ((0 : ℚ), (0 : ℚ))
        = ((0 : ℚ), (0 : ℚ)) := by
      norm_num [cadd, cmul]
    have hcond : ¬ (4 : ℚ) < norm_sqr ((0 : ℚ), (0 : ℚ)) := by
      norm_num [norm_sqr]
    rw [FractalService.mandelbrot_go, if_neg hcond, hstep, ih]

lemma range_flatMap_eq_block_concat (f : ℕ → List ℕ) (n : ℕ) :
    (List.range n).flatMap f = block_concat f n := by
  induction n with
  | zero => rfl
  | succ n ih => rw [List.range_succ, List.flatMap_append, ih]; simp [block_concat]

lemma block_concat_length (f : ℕ → List ℕ) (L : ℕ)
    (hf : ∀ i, (f i).length = L) : ∀ n, (block_concat f n).length = n * L := by
  intro n
  induction n with
  | zero => simp [block_concat]
  | succ n ih =>
    rw [block_concat, List.length_append, ih, hf]
    ring

lemma block_concat_getElem (f : ℕ → List ℕ) (L : ℕ)
    (hf : ∀ i, (f i).length = L) :
    ∀ n q r, q < n → r < L → (block_concat f n)[L * q + r]? = (f q)[r]? := by
  intro n
  induction n with
  | zero => intro q r hq _; omega
  | succ n ih =>
    intro q r hq hr
    rw [block_concat]
    rcases Nat.lt_or_ge q n with h | h
    · have hidx : L * q + r < (block_concat f n).length := by
        rw [block_concat_length f L hf n]
        calc L * q + r < L * q + L := by omega
          _ = L * (q + 1) := by ring
          _ ≤ L * n := Nat.mul_le_mul_left L h
          _ = n * L := Nat.mul_comm L n
      rw [List.getElem?_append_left hidx]
      exact ih q r h hr
    · have hq' : q = n := by omega
      subst hq'
      have hlen : (block_concat f q).length = q * L := block_concat_length f L hf q
      have hge : (block_concat f q).length ≤ L * q + r := by
        rw [hlen, Nat.mul_comm q L]
        exact Nat.le_add_right _ r
      rw [List.getElem?_append_right hge, hlen]
      have hidx : L * q + r - q * L = r := by
        rw [Nat.mul_comm q L]
        exact Nat.add_sub_cancel_left (L * q) r
      rw [hidx]

lemma flatten_flatMap_comm {α β : Type} (l : List α) (g : α → List (List β)) :
    (l.flatMap g).flatten = l.flatMap (fun y => (g y).flatten) := by
  induction l with
  | nil => rfl
  | cons a l ih => simp only [List.flatMap_cons, List.flatten_append, ih]

lemma iteration_to_dark_color_length (i m : ℕ) :
    (FractalService.iteration_to_dark_color i m).length = 4 := by
  by_cases h : i = m <;> simp [FractalService.iteration_to_dark_color, h]

lemma iteration_to_dark_color_alpha (i m : ℕ) :
    (FractalService.iteration_to_dark_color i m)[3]? = some 255 := by
  by_cases h : i = m <;> simp [FractalService.iteration_to_dark_color, h]

/-- The row-major pixel grid, abstract in the per-pixel function: its length. -/
lemma grid_data_length (w h : ℕ) (pix : ℕ → ℕ → List ℕ)
    (hlen : ∀ x y, (pix x y).length = 4) :
    (((List.range h).flatMap (fun y =>
      (List.range w).map (fun x => pix x y))).flatten).length = w * h * 4 := by
  rw [flatten_flatMap_comm]
  have hrow : ∀ y, (((List.range w).map (fun x => pix x y)).flatten).length = w * 4 := by
    intro y
    rw [← List.flatMap_def, range_flatMap_eq_block_concat]
    exact block_concat_length _ 4 (fun x => hlen x y) w
  rw [range_flatMap_eq_block_concat, block_concat_length _ (w * 4) hrow h]
  ring

/-- The row-major pixel grid, abstract in the per-pixel function: the byte at
offset `4*(y*w+x)+k` is byte `k` of pixel `(x, y)`. -/
lemma grid_data_getElem (w h : ℕ) (pix : ℕ → ℕ → List ℕ)
    (hlen : ∀ x y, (pix x y).length = 4) (x y k : ℕ)
    (hx : x < w) (hy : y < h) (hk : k < 4) :
    (((List.range h).flatMap (fun y =>
      (List.range w).map (fun x => pix x y))).flatten)[4 * (y * w + x) + k]?
      = (pix x y)[k]? := by
  rw [flatten_flatMap_comm]
  have hrow : ∀ y, ((List.range w).map (fun x => pix x y)).flatten
      = block_concat (fun x => pix x y) w := by
    intro y
    rw [← List.flatMap_def, range_flatMap_eq_block_concat]
  have hrowlen : ∀ y,
      (((List.range w).map (fun x => pix x y)).flatten).length = w * 4 := by
    intro y
    rw [hrow y]
    exact block_concat_length _ 4 (fun x => hlen x y) w
  rw [range_flatMap_eq_block_concat]
  have hidx : 4 * (y * w + x) + k = (w * 4) * y + (4 * x + k) := by ring
  rw [hidx, block_concat_getElem _ (w * 4) hrowlen h y (4 * x + k) hy (by omega)]
  rw [hrow y]
  exact block_concat_getElem _ 4 (fun i => hlen i y) w x k hx hk

/-- Looking a key up in the association list a set of workers produced: any
worker that computed row `y` stored exactly `f y`, so the lookup result is
determined by `f` alone. -/
lemma lookup_map_self {α : Type} (f : ℕ → α) :
    ∀ (l : List ℕ) (y : ℕ), y ∈ l →
      (l.map (fun r => (r, f r))).lookup y = some (f y) := by
  intro l
  induction l with
  | nil => intro y hy; cases hy
  | cons a l ih =>
    intro y hy
    rw [List.map_cons, List.lookup_cons]
    by_cases hya : y = a
    · subst hya; simp
    · have : (y == a) = false := by simp [hya]
      rw [this]
      rcases List.mem_cons.mp hy with h | h
      · exact absurd h hya
      · exact ih y h

/-- C1: for every request (and Julia constant), the output buffer has length
exactly `width*height*4`, the pixel at row `y`, column `x` occupies bytes
`[4*(y*width+x) .. 4*(y*width+x)+4)` (byte `k` of that range is byte `k` of
the pixel's R,G,B,A quadruple), and the alpha byte of every pixel is 255. -/
theorem buffer_layout_c1 (request : FractalRequest) (c : C2Q) (x y k : ℕ)
    (hx : x < request.width) (hy : y < request.height) (hk : k < 4) :
    (FractalService.generate_mandelbrot request).data.length
        = request.width * request.height * 4 ∧
    ((FractalService.generate_mandelbrot request).data)[4 * (y * request.width + x) + k]?
        = (FractalService.mandelbrot_pixel request x y)[k]? ∧
    ((FractalService.generate_mandelbrot request).data)[4 * (y * request.width + x) + 3]?
        = some 255 ∧
    (FractalService.generate_julia request c).data.length
        = request.width * request.height * 4 ∧
    ((FractalService.generate_julia request c).data)[4 * (y * request.width + x) + k]?
        = (FractalService.julia_pixel request c x y)[k]? ∧
    ((FractalService.generate_julia request c).data)[4 * (y * request.width + x) + 3]?
        = some 255 := by
  have hlenm : ∀ x y, (FractalService.mandelbrot_pixel request x y).length = 4 :=
    fun x y => iteration_to_dark_color_length _ _
  have hlenj : ∀ x y, (FractalService.julia_pixel request c x y).length = 4 :=
    fun x y => iteration_to_dark_color_length _ _
  refine ⟨?_, ?_, ?_, ?_, ?_, ?_⟩
  · exact grid_data_length request.width request.height _ hlenm
  · exact grid_data_getElem request.width request.height _ hlenm x y k hx hy hk
  · exact (grid_data_getElem request.width request.height _ hlenm x y 3 hx hy
      (by omega)).trans (iteration_to_dark_color_alpha _ _)
  · exact grid_data_length request.width request.height _ hlenj
  · exact grid_data_getElem request.width request.height _ hlenj x y k hx hy hk
  · exact (grid_data_getElem request.width request.height _ hlenj x y 3 hx hy
      (by omega)).trans (iteration_to_dark_color_alpha _ _)

/-- Witness for C1, at a concrete 2×2 request: the alpha byte of the pixel at
row 1, column 1 is 255. -/
theorem buffer_layout_c1_witness :
    ((FractalService.generate_mandelbrot
        ⟨2, 2, 0, 0, 1, 2, FractalType.Mandelbrot⟩).data)[4 * (1 * 2 + 1) + 3]?
      = some 255 :=
  (buffer_layout_c1 ⟨2, 2, 0, 0, 1, 2, FractalType.Mandelbrot⟩ (0, 0) 1 1 0
    (by decide) (by decide) (by decide)).2.2.1

/-- C2: both escape-time evaluators return the first iteration index at which
`|z|² > 4.0` holds — no earlier orbit point escapes, and if the returned index
is below the budget then the orbit point at that index has escaped — and the
returned count never exceeds `max_iterations`; the Mandelbrot evaluator runs
the orbit from `z = 0`, the Julia evaluator from the supplied point. -/
theorem escape_time_contract_c2 (z c : C2Q) (max_iterations : ℕ) :
    FractalService.julia_iterations z c max_iterations ≤ max_iterations ∧
    (∀ j < FractalService.julia_iterations z c max_iterations,
      ¬ 4 < norm_sqr (orbit z c j)) ∧
    (FractalService.julia_iterations z c max_iterations < max_iterations →
      4 < norm_sqr (orbit z c (FractalService.julia_iterations z c max_iterations))) ∧
    FractalService.mandelbrot_iterations c max_iterations ≤ max_iterations ∧
    (∀ j < FractalService.mandelbrot_iterations c max_iterations,
      ¬ 4 < norm_sqr (orbit (0, 0) c j)) ∧
    (FractalService.mandelbrot_iterations c max_iterations < max_iterations →
      4 < norm_sqr (orbit (0, 0) c (FractalService.mandelbrot_iterations c max_iterations))) := by
  obtain ⟨h1, h2, h3⟩ := julia_go_spec c max_iterations z
  obtain ⟨g1, g2, g3⟩ := julia_go_spec c max_iterations (0, 0)
  have hm : FractalService.mandelbrot_iterations c max_iterations
      = FractalService.julia_go c (0, 0) max_iterations :=
    mandelbrot_go_eq_julia_go c max_iterations (0, 0)
  exact ⟨h1, h2, h3, hm ▸ g1, hm ▸ g2, hm ▸ g3⟩

/-- Witness for C2, at `z = 3`, `c = 0`, budget 5: the returned index 0 is
below the budget and the orbit point there has escaped. -/
theorem escape_time_contract_c2_witness :
    FractalService.julia_iterations (3, 0) (0, 0) 5 < 5 ∧
    4 < norm_sqr (orbit (3, 0) (0, 0) (FractalService.julia_iterations (3, 0) (0, 0) 5)) := by
  have hlt : FractalService.julia_iterations (3, 0) (0, 0) 5 < 5 := by
    norm_num [FractalService.julia_iterations, FractalService.julia_go, norm_sqr]
  exact ⟨hlt, (escape_time_contract_c2 (3, 0) (0, 0) 5).2.2.1 hlt⟩

/-- C3: the per-pixel viewport mapping of the source is exactly the affine
transform the specification states: `scale = 4.0/zoom`,
`point = (cx + (x − W/2)·scale/W, cy + (y − H/2)·scale/H)`. -/
theorem viewport_mapping_c3 (request : FractalRequest) (x y : ℕ) :
    FractalService.pixel_point request x y
      = viewport_point_spec request.width request.height
          request.center_x request.center_y request.zoom x y := rfl

/-- C10: the Mandelbrot evaluator equals the Julia evaluator started at
`z = 0`, for every constant and budget. -/
theorem mandelbrot_equals_julia_from_zero_c10 (c : C2Q) (max_iterations : ℕ) :
    FractalService.mandelbrot_iterations c max_iterations
      = FractalService.julia_iterations (0, 0) c max_iterations :=
  mandelbrot_go_eq_julia_go c max_iterations (0, 0)

/-- C4: any request with a field outside its documented bound fails validation
with the offending field named; `width=5000` (others valid) is rejected naming
exactly `width`, `zoom=0.01` is rejected, `max_iterations=20000` is rejected;
and the engine itself never clamps — `generate_mandelbrot` consumes the
request's fields exactly as given. -/
theorem validation_rejection_c4 :
    (∀ r : FractalRequest, ¬ (64 ≤ r.width ∧ r.width ≤ 4096) → "width" ∈ r.validate) ∧
    (∀ r : FractalRequest, ¬ (64 ≤ r.height ∧ r.height ≤ 4096) → "height" ∈ r.validate) ∧
    (∀ r : FractalRequest, ¬ (-2 ≤ r.center_x ∧ r.center_x ≤ 2) → "center_x" ∈ r.validate) ∧
    (∀ r : FractalRequest, ¬ (-2 ≤ r.center_y ∧ r.center_y ≤ 2) → "center_y" ∈ r.validate) ∧
    (∀ r : FractalRequest, ¬ (1 / 10 ≤ r.zoom ∧ r.zoom ≤ 10 ^ 15) → "zoom" ∈ r.validate) ∧
    (∀ r : FractalRequest,
      ¬ (50 ≤ r.max_iterations ∧ r.max_iterations ≤ 10000) → "max_iterations" ∈ r.validate) ∧
    FractalRequest.validate
      ⟨5000, 600, -(1 / 2), 0, 1, 100, FractalType.Mandelbrot⟩ = ["width"] ∧
    FractalRequest.validate
      ⟨800, 600, -(1 / 2), 0, 1 / 100, 100, FractalType.Mandelbrot⟩ = ["zoom"] ∧
    FractalRequest.validate
      ⟨800, 600, -(1 / 2), 0, 1, 20000, FractalType.Mandelbrot⟩ = ["max_iterations"] ∧
    (∀ r : FractalRequest,
      (FractalService.generate_mandelbrot r).width = r.width ∧
      (FractalService.generate_mandelbrot r).height = r.height ∧
      (FractalService.generate_mandelbrot r).data.length = r.width * r.height * 4) := by
  refine ⟨?_, ?_, ?_, ?_, ?_, ?_, ?_, ?_, ?_, ?_⟩
  · intro r h; unfold FractalRequest.validate; rw [if_neg h]; split_ifs <;> simp
  · intro r h; unfold FractalRequest.validate; rw [if_neg h]; split_ifs <;> simp
  · intro r h; unfold FractalRequest.validate; rw [if_neg h]; split_ifs <;> simp
  · intro r h; unfold FractalRequest.validate; rw [if_neg h]; split_ifs <;> simp
  · intro r h; unfold FractalRequest.validate; rw [if_neg h]; split_ifs <;> simp
  · intro r h; unfold FractalRequest.validate; rw [if_neg h]; split_ifs <;> simp
  · norm_num [FractalRequest.validate]
  · norm_num [FractalRequest.validate]
  · norm_num [FractalRequest.validate]
  · intro r
    exact ⟨rfl, rfl,
      grid_data_length r.width r.height _
        (fun x y => iteration_to_dark_color_length _ _)⟩

/-- Witness for C4: a request with `width = 5000` and all other fields valid
fails validation with `width` among the named fields. -/
theorem validation_rejection_c4_witness :
    "width" ∈ FractalRequest.validate
      ⟨5000, 600, -(1 / 2), 0, 1, 100, FractalType.Mandelbrot⟩ :=
  validation_rejection_c4.1
    ⟨5000, 600, -(1 / 2), 0, 1, 100, FractalType.Mandelbrot⟩ (by decide)

/-- C5 counterexample: at `iterations = 0 ≠ 100 = max_iterations` the colour
mapper already emits opaque black `(0,0,0,255)`, so black is not emitted
*exactly* when `iterations == max_iterations`, and the colour at `t = 0` is
black rather than the darkest non-black colour. -/
theorem color_mapper_c5_counterexample :
    FractalService.iteration_to_dark_color 0 100 = [0, 0, 0, 255] ∧ (0 : ℕ) ≠ 100 := by
  constructor
  · simp [FractalService.iteration_to_dark_color]
  · decide

/-- C5 as amended: the mapper emits opaque black when
`iterations == max_iterations`; for `iterations < max_iterations` it computes
`t = iterations / max_iterations` and emits
`(⌊t*30⌋, ⌊t*50⌋, ⌊t*80⌋, 255)`, each channel non-decreasing in `t` and alpha
255 — but at `t = 0` this colour is again `(0,0,0,255)` (black), not a
non-black colour. -/
theorem color_mapper_c5_amended (max_iterations : ℕ) :
    FractalService.iteration_to_dark_color max_iterations max_iterations = [0, 0, 0, 255] ∧
    FractalService.iteration_to_dark_color 0 max_iterations = [0, 0, 0, 255] ∧
    (∀ iterations, iterations < max_iterations →
      FractalService.iteration_to_dark_color iterations max_iterations =
        [⌊(iterations : ℚ) / (max_iterations : ℚ) * 30⌋₊,
         ⌊(iterations : ℚ) / (max_iterations : ℚ) * 50⌋₊,
         ⌊(iterations : ℚ) / (max_iterations : ℚ) * 80⌋₊, 255]) ∧
    (∀ i1 i2 : ℕ, ∀ coeff : ℚ, i1 ≤ i2 → 0 ≤ coeff →
      ⌊(i1 : ℚ) / (max_iterations : ℚ) * coeff⌋₊
        ≤ ⌊(i2 : ℚ) / (max_iterations : ℚ) * coeff⌋₊) := by
  refine ⟨?_, ?_, ?_, ?_⟩
  · simp [FractalService.iteration_to_dark_color]
  · rcases Nat.eq_zero_or_pos max_iterations with h | h
    · subst h; simp [FractalService.iteration_to_dark_color]
    · have hne : (0 : ℕ) ≠ max_iterations := by omega
      simp [FractalService.iteration_to_dark_color, hne]
  · intro i hi
    have hne : i ≠ max_iterations := Nat.ne_of_lt hi
    simp [FractalService.iteration_to_dark_color, hne]
  · intro i1 i2 coeff h12 hc
    have hdiv : (i1 : ℚ) / (max_iterations : ℚ) ≤ (i2 : ℚ) / (max_iterations : ℚ) := by
      rcases Nat.eq_zero_or_pos max_iterations with h | h
      · simp [h]
      · have hpos : (0 : ℚ) < (max_iterations : ℚ) := by exact_mod_cast h
        exact (div_le_div_iff_of_pos_right hpos).mpr (by exact_mod_cast h12)
    exact Nat.floor_le_floor (mul_le_mul_of_nonneg_right hdiv hc)

/-- Witness for C5 (amended), at `iterations = 25`, `max_iterations = 100`. -/
theorem color_mapper_c5_witness :
    FractalService.iteration_to_dark_color 25 100 =
      [⌊(25 : ℚ) / (100 : ℚ) * 30⌋₊, ⌊(25 : ℚ) / (100 : ℚ) * 50⌋₊,
       ⌊(25 : ℚ) / (100 : ℚ) * 80⌋₊, 255] :=
  (color_mapper_c5_amended 100).2.2.1 25 (by decide)

/-- C6: the classification is by the score
`width*height*max_iterations*log10(max(zoom,1)) / 1_000_000` with thresholds
`<1 → Low`, `<10 → Medium`, `<100 → High`, else `Extreme`; the source's
`zoom.log10().max(0.0)` coincides with the claim's `log10(max(zoom,1))` for
every positive zoom; and the two §8 instances classify as `Low`
(`log10 1 = 0`) and `Extreme` (`log10 1000 = 3`). -/
theorem complexity_classification_c6 :
    (∀ (w h i : ℕ) (l : ℚ),
      (ComputationComplexity.from_parameters w h i l = ComputationComplexity.Low ↔
        ((w * h : ℕ) : ℚ) * (i : ℚ) * max l 0 / 1000000 < 1) ∧
      (ComputationComplexity.from_parameters w h i l = ComputationComplexity.Medium ↔
        1 ≤ ((w * h : ℕ) : ℚ) * (i : ℚ) * max l 0 / 1000000 ∧
        ((w * h : ℕ) : ℚ) * (i : ℚ) * max l 0 / 1000000 < 10) ∧
      (ComputationComplexity.from_parameters w h i l = ComputationComplexity.High ↔
        10 ≤ ((w * h : ℕ) : ℚ) * (i : ℚ) * max l 0 / 1000000 ∧
        ((w * h : ℕ) : ℚ) * (i : ℚ) * max l 0 / 1000000 < 100) ∧
      (ComputationComplexity.from_parameters w h i l = ComputationComplexity.Extreme ↔
        100 ≤ ((w * h : ℕ) : ℚ) * (i : ℚ) * max l 0 / 1000000)) ∧
    ComputationComplexity.from_parameters 256 256 50 0 = ComputationComplexity.Low ∧
    ComputationComplexity.from_parameters 2048 2048 1000 3 = ComputationComplexity.Extreme ∧
    Real.logb 10 1 = 0 ∧
    Real.logb 10 1000 = 3 ∧
    (∀ z : ℝ, 0 < z → max (Real.logb 10 z) 0 = Real.logb 10 (max z 1)) := by
  refine ⟨?_, ?_, ?_, ?_, ?_, ?_⟩
  · intro w h i l
    simp only [ComputationComplexity.from_parameters]
    split_ifs with h1 h2 h3
    · exact ⟨iff_of_true rfl h1,
        iff_of_false (by simp) (fun hx => by linarith [hx.1]),
        iff_of_false (by simp) (fun hx => by linarith [hx.1]),
        iff_of_false (by simp) (fun hx => by linarith)⟩
    · rw [not_lt] at h1
      exact ⟨iff_of_false (by simp) (fun hx => by linarith),
        iff_of_true rfl ⟨h1, h2⟩,
        iff_of_false (by simp) (fun hx => by linarith [hx.1]),
        iff_of_false (by simp) (fun hx => by linarith)⟩
    · rw [not_lt] at h1 h2
      exact ⟨iff_of_false (by simp) (fun hx => by linarith),
        iff_of_false (by simp) (fun hx => by linarith [hx.2]),
        iff_of_true rfl ⟨h2, h3⟩,
        iff_of_false (by simp) (fun hx => by linarith)⟩
    · rw [not_lt] at h1 h2 h3
      exact ⟨iff_of_false (by simp) (fun hx => by linarith),
        iff_of_false (by simp) (fun hx => by linarith [hx.2]),
        iff_of_false (by simp) (fun hx => by linarith [hx.2]),
        iff_of_true rfl h3⟩
  · norm_num [ComputationComplexity.from_parameters]
  · norm_num [ComputationComplexity.from_parameters]
  · exact Real.logb_one
  · rw [show (1000 : ℝ) = 10 ^ (3 : ℕ) by norm_num, Real.logb_pow,
      Real.logb_self_eq_one (by norm_num)]
    norm_num
  · intro z hz
    rcases le_or_lt 1 z with h1 | h1
    · rw [max_eq_left h1,
        max_eq_left (Real.logb_nonneg (by norm_num) h1)]
    · rw [max_eq_right (le_of_lt h1), Real.logb_one,
        max_eq_right (Real.logb_nonpos (by norm_num) (le_of_lt hz) (le_of_lt h1))]

/-- Witness for C6: the source formula `max(log10 z, 0)` agrees with the
claim formula `log10(max(z, 1))` at the concrete positive zoom `z = 2`, and
the first §8 instance classifies as `Low`. -/
theorem complexity_classification_c6_witness :
    ComputationComplexity.from_parameters 256 256 50 0 = ComputationComplexity.Low ∧
    max (Real.logb 10 2) 0 = Real.logb 10 (max 2 1) :=
  ⟨complexity_classification_c6.2.1,
   complexity_classification_c6.2.2.2.2.2 2 (by norm_num)⟩

/-- C7: for a fixed request (including a fixed Julia constant) the computation
is deterministic — two runs give identical buffers — and the scheduled model,
in which the rows are computed in an arbitrary order and each worker's result
is stored at its statically-known slot, yields the canonical row-major buffer
for every permutation of the rows, i.e. the buffer is independent of
worker-pool size and scheduling order. -/
theorem determinism_c7 (request : FractalRequest) (c : C2Q) (order : List ℕ)
    (hperm : order.Perm (List.range request.height)) :
    FractalService.generate_mandelbrot request = FractalService.generate_mandelbrot request ∧
    FractalService.generate_julia request c = FractalService.generate_julia request c ∧
    FractalService.scheduled_mandelbrot_data request order
      = (FractalService.generate_mandelbrot request).data ∧
    FractalService.scheduled_julia_data request c order
      = (FractalService.generate_julia request c).data := by
  refine ⟨rfl, rfl, ?_, ?_⟩
  · have hm : ∀ y ∈ List.range request.height,
        (match (order.map (fun r => (r, FractalService.mandelbrot_row request r))).lookup y with
         | some bytes => bytes
         | none => ([] : List ℕ)) = FractalService.mandelbrot_row request y := by
      intro y hy
      rw [lookup_map_self (FractalService.mandelbrot_row request) order y (hperm.mem_iff.mpr hy)]
    have hstep : FractalService.scheduled_mandelbrot_data request order
        = (List.range request.height).flatMap (FractalService.mandelbrot_row request) := by
      unfold FractalService.scheduled_mandelbrot_data
      rw [List.flatMap_def, List.flatMap_def]
      exact congrArg List.flatten (List.map_congr_left hm)
    rw [hstep]
    show _ = FractalService.generate_mandelbrot_data request
    unfold FractalService.generate_mandelbrot_data
    rw [flatten_flatMap_comm]
    rfl
  · have hj : ∀ y ∈ List.range request.height,
        (match (order.map (fun r => (r, FractalService.julia_row request c r))).lookup y with
         | some bytes => bytes
         | none => ([] : List ℕ)) = FractalService.julia_row request c y := by
      intro y hy
      rw [lookup_map_self (FractalService.julia_row request c) order y (hperm.mem_iff.mpr hy)]
    have hstep : FractalService.scheduled_julia_data request c order
        = (List.range request.height).flatMap (FractalService.julia_row request c) := by
      unfold FractalService.scheduled_julia_data
      rw [List.flatMap_def, List.flatMap_def]
      exact congrArg List.flatten (List.map_congr_left hj)
    rw [hstep]
    show _ = FractalService.generate_julia_data request c
    unfold FractalService.generate_julia_data
    rw [flatten_flatMap_comm]
    rfl

/-- Witness for C7: with two rows computed in reversed order, the assembled
buffer equals the canonical one. -/
theorem determinism_c7_witness :
    FractalService.scheduled_mandelbrot_data
        ⟨2, 2, 0, 0, 1, 2, FractalType.Mandelbrot⟩ [1, 0]
      = (FractalService.generate_mandelbrot
          ⟨2, 2, 0, 0, 1, 2, FractalType.Mandelbrot⟩).data :=
  (determinism_c7 ⟨2, 2, 0, 0, 1, 2, FractalType.Mandelbrot⟩ (0, 0) [1, 0]
    (by decide)).2.2.1

/-- C8: for any successful computation with positive measured elapsed
milliseconds and a non-empty pixel grid, `pixels_per_second` is a
well-defined (finite) rational and strictly positive, and
`parallel_efficiency` lies in `[0, 1]`. -/
theorem throughput_metrics_c8 (width height computation_time_ms available_cores : ℕ)
    (hms : 1 ≤ computation_time_ms) (hw : 1 ≤ width) (hh : 1 ≤ height) :
    0 < pixels_per_second width height computation_time_ms ∧
    0 ≤ calculate_parallel_efficiency computation_time_ms (width * height) available_cores ∧
    calculate_parallel_efficiency computation_time_ms (width * height) available_cores ≤ 1 := by
  have hmspos : (0 : ℚ) < (computation_time_ms : ℚ) := by exact_mod_cast hms
  refine ⟨?_, ?_, ?_⟩
  · apply div_pos
    · have : 1 ≤ width * height := Nat.one_le_iff_ne_zero.mpr (by positivity)
      exact_mod_cast this
    · positivity
  · apply le_min _ zero_le_one
    positivity
  · exact min_le_right _ 1

/-- Witness for C8, at a 800×600 image computed in 17 ms on 8 cores. -/
theorem throughput_metrics_c8_witness :
    0 < pixels_per_second 800 600 17 ∧
    0 ≤ calculate_parallel_efficiency 17 (800 * 600) 8 ∧
    calculate_parallel_efficiency 17 (800 * 600) 8 ≤ 1 :=
  throughput_metrics_c8 800 600 17 8 (by decide) (by decide) (by decide)

set_option maxRecDepth 10000 in
/-- C9: for the Mandelbrot request with center `(-0.5, 0)`, zoom 1 and
`max_iterations = 100` (at the route's 800×600 default size), the pixel
`(500, 300)` is the unique pixel whose mapped complex point is `(0, 0)` —
hence the pixel nearest the plane origin — its iteration count is exactly
`max_iterations`, and its four bytes in the buffer are opaque black
`(0, 0, 0, 255)`. -/
theorem interior_point_black_c9 (x y : ℕ) (_hx : x < 800) (_hy : y < 600)
    (hzero : FractalService.pixel_point default_mandelbrot_request x y = (0, 0)) :
    (x = 500 ∧ y = 300) ∧
    FractalService.pixel_point default_mandelbrot_request 500 300 = (0, 0) ∧
    FractalService.mandelbrot_iterations (0, 0) 100 = 100 ∧
    FractalService.mandelbrot_pixel default_mandelbrot_request 500 300 = [0, 0, 0, 255] ∧
    ((FractalService.generate_mandelbrot default_mandelbrot_request).data)[4 * (300 * 800 + 500)]?
      = some 0 ∧
    ((FractalService.generate_mandelbrot default_mandelbrot_request).data)[4 * (300 * 800 + 500) + 1]?
      = some 0 ∧
    ((FractalService.generate_mandelbrot default_mandelbrot_request).data)[4 * (300 * 800 + 500) + 2]?
      = some 0 ∧
    ((FractalService.generate_mandelbrot default_mandelbrot_request).data)[4 * (300 * 800 + 500) + 3]?
      = some 255 := by
  have hpoint : FractalService.pixel_point default_mandelbrot_request 500 300 = (0, 0) := by
    norm_num [FractalService.pixel_point, default_mandelbrot_request, Prod.ext_iff]
  have hiter : FractalService.mandelbrot_iterations (0, 0) 100 = 100 :=
    mandelbrot_go_zero 100
  have hpix : FractalService.mandelbrot_pixel default_mandelbrot_request 500 300
      = [0, 0, 0, 255] := by
    unfold FractalService.mandelbrot_pixel
    rw [hpoint]
    show FractalService.iteration_to_dark_color
      (FractalService.mandelbrot_iterations (0, 0) 100) 100 = [0, 0, 0, 255]
    rw [hiter]
    simp [FractalService.iteration_to_dark_color]
  have hlen : ∀ x y,
      (FractalService.mandelbrot_pixel default_mandelbrot_request x y).length = 4 :=
    fun x y => iteration_to_dark_color_length _ _
  have hbyte : ∀ k, k < 4 →
      ((FractalService.generate_mandelbrot default_mandelbrot_request).data)[4 * (300 * 800 + 500) + k]?
        = (FractalService.mandelbrot_pixel default_mandelbrot_request 500 300)[k]? := by
    intro k hk
    exact grid_data_getElem 800 600 _ hlen 500 300 k (by omega) (by omega) hk
  refine ⟨?_, hpoint, hiter, hpix, ?_, ?_, ?_, ?_⟩
  · have hzx := congrArg Prod.fst hzero
    have hzy := congrArg Prod.snd hzero
    simp only [FractalService.pixel_point, default_mandelbrot_request] at hzx hzy
    norm_num at hzx hzy
    constructor
    · have hxq : (x : ℚ) = 500 := by linarith
      exact_mod_cast hxq
    · have hyq : (y : ℚ) = 300 := by linarith
      exact_mod_cast hyq
  · have := hbyte 0 (by omega)
    rw [show 4 * (300 * 800 + 500) + 0 = 4 * (300 * 800 + 500) by omega] at this
    rw [this, hpix]; rfl
  · rw [hbyte 1 (by omega), hpix]; rfl
  · rw [hbyte 2 (by omega), hpix]; rfl
  · rw [hbyte 3 (by omega), hpix]; rfl

/-- Witness for C9: instantiated at the pixel `(500, 300)` itself. -/
theorem interior_point_black_c9_witness :
    FractalService.mandelbrot_pixel default_mandelbrot_request 500 300 = [0, 0, 0, 255] :=
  (interior_point_black_c9 500 300 (by decide) (by decide)
    (by norm_num [FractalService.pixel_point, default_mandelbrot_request,
      Prod.ext_iff])).2.2.2.1
